import Mathlib

/-!
Shallow embedding of `src/agent/agent.py`, a LiveKit/Tavus voice agent.

The original logic of the program is the debounced echo/interrupt response
policy inside `entrypoint` (the closures `speak_now`,
`schedule_debounced_speak`, `_later`, the event handler `on_transcript`),
the standalone text-input callback `on_text`, the environment validator
`require_env`, and the bootstrap sequencing of `entrypoint` (env check
before `ctx.connect()`, avatar start bounded by `asyncio.wait_for`
with timeout 30).

Modelling choices:
* Python strings are `List Char`; `str.strip()` is `strip` below
  (drop whitespace from both ends).
* Time is `ℚ`; the debounce quiet interval `0.7` is `QUIET = 7/10`.
* `session.interrupt()` / `session.say(...)` are calls recorded in an
  output trace; their possible failure is an `Except String` result,
  driven by an `Env` of failure flags (`try/except` in the source is an
  explicit match that discards the error).
* The asyncio task created by `schedule_debounced_speak` is a `TaskRec`
  with a status (pending / cancelled / fired); the event loop is a
  discrete-event simulator that fires due timers before delivering each
  event, and drains remaining timers at the end of a run.
* `loop.call_soon_threadsafe` in `on_transcript` is made explicit by a
  `Dispatch` type distinguishing marshalled loop calls from direct calls
  on the producing thread.
-/

/-- Python `str` as a list of characters. -/
abbrev Str := List Char

/-- Python `str.strip()`: remove whitespace from both ends. -/
def strip (s : Str) : Str :=
  (s.dropWhile Char.isWhitespace).rdropWhile Char.isWhitespace

/-- Time, in the source's seconds. -/
abbrev Time := ℚ

/-- Debounce quiet interval: `asyncio.sleep(0.7)` in `_later`. -/
def QUIET : Time := 7/10

/-- The argument pair of `session.say(text, allow_interruptions=True)`. -/
structure SpeechRequest where
  text : Str
  allow_interruptions : Bool
deriving DecidableEq, Repr

/-- One call made on the session's speech interface. -/
inductive OutCall
  | interruptAttempt
  | say (req : SpeechRequest)
deriving DecidableEq, Repr

/-- Failure flags of the external session calls: whether
`session.interrupt()` raises (e.g. nothing is playing) and whether
`session.say(...)` raises. -/
structure FailEnv where
  interruptFails : Bool
  sayFails : Bool
deriving DecidableEq, Repr

/-- `session.interrupt()`: may raise. -/
def interruptOp (env : FailEnv) : Except String Unit :=
  if env.interruptFails then .error "interrupt failed: nothing playing" else .ok ()

/-- `session.say(text, allow_interruptions=True)`: may raise. -/
def sayOp (env : FailEnv) (req : SpeechRequest) : Except String SpeechRequest :=
  if env.sayFails then .error "speech output failure" else .ok req

/-- The two nonlocal variables of the closure in `entrypoint`:
`pending_text` and `pending_task` (here the task's id). -/
structure DebounceState where
  pending_text : Str
  pending_task : Option Nat
deriving DecidableEq, Repr

/-- `speak_now` (agent.py lines 81-89), with the closure state passed
explicitly: strip the text, return silently if empty, otherwise attempt
`session.interrupt()` inside `try/except Exception: pass`, then call
`session.say(text, allow_interruptions=True)`.  The first component is
the closure state after the call; the second is the raised error or the
list of session calls made. -/
def speak_now (env : FailEnv) (st : DebounceState) (text : Str) :
    DebounceState × Except String (List OutCall) :=
  let text := strip text
  if text.isEmpty then (st, .ok [])
  else
    let icalls : List OutCall :=
      match interruptOp env with
      | .ok _ => [.interruptAttempt]
      | .error _ => [.interruptAttempt]
    match sayOp env ⟨text, true⟩ with
    | .error e => (st, .error e)
    | .ok req => (st, .ok (icalls ++ [.say req]))

/-- `on_text` (agent.py lines 26-34): the text-input callback.  Same body
as `speak_now` but standalone, reading `(ev.text or "")` first. -/
def on_text (env : FailEnv) (evText : Option Str) : Except String (List OutCall) :=
  let msg := strip (evText.getD [])
  if msg.isEmpty then .ok []
  else
    let icalls : List OutCall :=
      match interruptOp env with
      | .ok _ => [.interruptAttempt]
      | .error _ => [.interruptAttempt]
    match sayOp env ⟨msg, true⟩ with
    | .error e => .error e
    | .ok req => .ok (icalls ++ [.say req])

/-- The two closure functions `on_transcript` can marshal to the loop. -/
inductive LoopFn
  | speakNowFn (text : Str)
  | scheduleDebouncedFn (text : Str)
deriving DecidableEq, Repr

/-- How a callback invokes work: marshalled onto the controlling event
loop via `loop.call_soon_threadsafe`, or invoked directly on the
producing thread. -/
inductive Dispatch
  | callSoonThreadsafe (f : LoopFn)
  | directCall (f : LoopFn)
deriving DecidableEq, Repr

/-- `on_transcript` (agent.py lines 104-120) as the dispatch decision it
makes: strip `getattr(event, "transcript", "") or ""`, drop empty text,
then marshal either `speak_now` (final) or `schedule_debounced_speak`
(non-final) onto the loop with `loop.call_soon_threadsafe`. -/
def on_transcript (transcript : Option Str) (is_final : Bool) : List Dispatch :=
  let text := strip (transcript.getD [])
  if text.isEmpty then []
  else if is_final then [.callSoonThreadsafe (.speakNowFn text)]
  else [.callSoonThreadsafe (.scheduleDebouncedFn text)]

/-- Status of an asyncio task created by `schedule_debounced_speak`. -/
inductive TaskStatus
  | pending
  | cancelled
  | fired
deriving DecidableEq, Repr

/-- One asyncio task running `_later`: sleeps until `fireAt`, then calls
`speak_now(pending_text)`. -/
structure TaskRec where
  id : Nat
  fireAt : Time
  status : TaskStatus
deriving DecidableEq, Repr

/-- The simulated event-loop state: the closure variables, the set of
tasks ever created, a fresh-id counter, and the trace of session calls
made so far (timestamped). -/
structure SimState where
  pending_text : Str
  pending_task : Option Nat
  tasks : List TaskRec
  nextId : Nat
  out : List (Time × OutCall)
deriving DecidableEq, Repr

/-- Initial closure state: `pending_task = None`, `pending_text = ""`. -/
def initState : SimState :=
  { pending_text := [], pending_task := none, tasks := [], nextId := 0, out := [] }

/-- The session calls `speak_now(text)` makes at time `t` when no call
fails: nothing for blank text, otherwise an interrupt attempt followed by
the say. -/
def speakCalls (t : Time) (text : Str) : List (Time × OutCall) :=
  let text := strip text
  if text.isEmpty then []
  else [(t, .interruptAttempt), (t, .say ⟨text, true⟩)]

/-- `schedule_debounced_speak` (agent.py lines 91-102) at time `t`:
record the text as pending, cancel the previous task if it is not done,
and create a fresh task that will fire after `QUIET`. -/
def schedule_debounced_speak (t : Time) (text : Str) (s : SimState) : SimState :=
  let s1 := { s with pending_text := text }
  let s2 :=
    match s1.pending_task with
    | some i =>
      { s1 with tasks := s1.tasks.map fun (tk : TaskRec) =>
          if tk.id = i ∧ tk.status = TaskStatus.pending then { tk with status := TaskStatus.cancelled } else tk }
    | none => s1
  { s2 with
    tasks := s2.tasks ++ [(⟨s2.nextId, t + QUIET, .pending⟩ : TaskRec)],
    pending_task := some s2.nextId,
    nextId := s2.nextId + 1 }

/-- The event loop running a due task to completion: if the task with
this id is still pending, its `_later` body resumes after the sleep and
calls `speak_now` with the `pending_text` current at fire time. -/
def fireTask (s : SimState) (i : Nat) : SimState :=
  match s.tasks.find? (fun tk => tk.id = i) with
  | none => s
  | some tk =>
    if tk.status = .pending then
      { s with
        tasks := s.tasks.map fun (x : TaskRec) => if x.id = i then { x with status := .fired } else x,
        out := s.out ++ speakCalls tk.fireAt s.pending_text }
    else s

/-- Fire every pending task whose deadline is at or before `t`. -/
def fireDue (s : SimState) (t : Time) : SimState :=
  (s.tasks.filter fun tk => tk.status = .pending ∧ tk.fireAt ≤ t).foldl
    (fun s tk => fireTask s tk.id) s

/-- Run one function marshalled onto the loop at time `t`. -/
def runLoopFn (t : Time) (s : SimState) : LoopFn → SimState
  | .speakNowFn text => { s with out := s.out ++ speakCalls t text }
  | .scheduleDebouncedFn text => schedule_debounced_speak t text s

/-- Run one dispatched invocation (the loop executes it either way; the
distinction records which thread it was issued from). -/
def runDispatch (t : Time) (s : SimState) (d : Dispatch) : SimState :=
  match d with
  | .callSoonThreadsafe f => runLoopFn t s f
  | .directCall f => runLoopFn t s f

/-- An input event of the policy. -/
inductive Ev
  | transcript (text : Option Str) (is_final : Bool)
  | textInput (text : Option Str)
deriving DecidableEq, Repr

/-- Deliver one event at time `t`: transcript events go through
`on_transcript`'s dispatching; text-input events run `on_text`'s body
(strip, drop blank, interrupt then say). -/
def handleEvent (t : Time) (e : Ev) (s : SimState) : SimState :=
  match e with
  | .transcript tr fin => (on_transcript tr fin).foldl (runDispatch t) s
  | .textInput tr =>
    let msg := strip (tr.getD [])
    if msg.isEmpty then s
    else { s with out := s.out ++ [(t, .interruptAttempt), (t, .say ⟨msg, true⟩)] }

/-- One simulator step: fire timers due by the event's arrival time,
then deliver the event. -/
def stepEvent (s : SimState) (te : Time × Ev) : SimState :=
  handleEvent te.1 te.2 (fireDue s te.1)

/-- Deliver a timeline of events (times nondecreasing). -/
def runTimeline (s : SimState) (evs : List (Time × Ev)) : SimState :=
  evs.foldl stepEvent s

/-- After the last event, let every still-pending timer fire. -/
def drain (s : SimState) : SimState :=
  s.tasks.foldl (fun s tk => fireTask s tk.id) s

/-- Full run of a timeline from the initial state, to quiescence. -/
def simulate (evs : List (Time × Ev)) : SimState :=
  drain (runTimeline initState evs)

/-- The speech requests issued in a run, with their times. -/
def saidRequests (s : SimState) : List (Time × SpeechRequest) :=
  s.out.filterMap fun tc =>
    match tc.2 with
    | .say r => some (tc.1, r)
    | .interruptAttempt => none

/-- `os.environ`: a partial map from variable names to values. -/
abbrev EnvMap := String → Option String

/-- Python truth test `not os.environ.get(n)`: true when the variable is
unset or bound to the empty string. -/
def isMissing (env : EnvMap) (n : String) : Bool :=
  match env n with
  | none => true
  | some v => v == ""

/-- The error message `require_env` raises, built from the missing
names. -/
def envErrMsg (missing : List String) : String :=
  "Missing required environment variables in agent/.env.local:\n"
    ++ String.intercalate "\n" (missing.map fun m => "  - " ++ m)

/-- `require_env` (agent.py lines 17-23): collect every name without a
non-empty binding; raise a `RuntimeError` listing all of them if any. -/
def require_env (env : EnvMap) (names : List String) : Except String Unit :=
  let missing := names.filter fun n => isMissing env n
  if missing.isEmpty then .ok ()
  else .error (envErrMsg missing)

/-- The six required names, in the order `entrypoint` passes them. -/
def requiredNames : List String :=
  ["LIVEKIT_URL", "LIVEKIT_API_KEY", "LIVEKIT_API_SECRET",
   "TAVUS_API_KEY", "TAVUS_REPLICA_ID", "TAVUS_PERSONA_ID"]

/-- External resource acquisitions `entrypoint` performs, in order. -/
inductive BootAction
  | connect
  | avatarStart
  | sessionStart
deriving DecidableEq, Repr

/-- `await asyncio.wait_for(avatar.start(...), timeout=30)` modelled on
the time axis: `completesAfter` is how long `avatar.start` would take
(`none` = never completes).  Returns the elapsed time at which the await
resolves and either success or the raised `TimeoutError`. -/
def avatar_start_await (completesAfter : Option Time) : Time × Except String Unit :=
  match completesAfter with
  | some d => if d ≤ 30 then (d, .ok ()) else (30, .error "TimeoutError")
  | none => (30, .error "TimeoutError")

/-- The bootstrap sequencing of `entrypoint` (agent.py lines 38-73):
validate the environment, then `ctx.connect()`, then start the avatar
under the 30-unit timeout, then start the session.  Returns the trace of
external acquisitions attempted and the first error raised, if any. -/
def entrypoint_run (env : EnvMap) (avatarCompletesAfter : Option Time) :
    List BootAction × Except String Unit :=
  match require_env env requiredNames with
  | .error e => ([], .error e)
  | .ok _ =>
    match avatar_start_await avatarCompletesAfter with
    | (_, .error e) => ([.connect, .avatarStart], .error e)
    | (_, .ok _) => ([.connect, .avatarStart, .sessionStart], .ok ())

/-- Whether a dispatch goes through `loop.call_soon_threadsafe`. -/
def dispatchMarshalled : Dispatch → Bool
  | .callSoonThreadsafe _ => true
  | .directCall _ => false

/-- Number of live (armed, not yet fired or cancelled) debounce tasks. -/
def pendingCount (s : SimState) : Nat :=
  s.tasks.countP fun tk => tk.status == TaskStatus.pending

/-- A rapid chain of events after a previous one: each arrives strictly
after the previous event and strictly less than `QUIET` later, with
non-blank text. -/
def chainOK : Time × Str → List (Time × Str) → Prop
  | _, [] => True
  | prev, e :: rest =>
    prev.1 < e.1 ∧ e.1 < prev.1 + QUIET ∧ strip e.2 ≠ [] ∧ chainOK e rest

/-- Timed non-final transcript events carrying the given texts. -/
def chainEvents (xs : List (Time × Str)) : List (Time × Ev) :=
  xs.map fun p => (p.1, .transcript (some p.2) false)

/-- Mid-chain simulator state: no output yet, one armed timer due
`QUIET` after the last partial, every older task cancelled, and the last
partial's stripped text pending. -/
def ChainInv (s : SimState) (tl : Time) (xl : Str) : Prop :=
  ∃ done n,
    s.tasks = done ++ [(⟨n, tl + QUIET, TaskStatus.pending⟩ : TaskRec)]
    ∧ (∀ tk ∈ done, tk.status = TaskStatus.cancelled ∧ tk.id < n)
    ∧ s.pending_task = some n ∧ s.nextId = n + 1
    ∧ s.pending_text = strip xl ∧ s.out = []

/-- An environment with every variable bound non-empty (for witnesses). -/
def envAllSet : EnvMap := fun _ => some "value"

/-- An environment missing `TAVUS_API_KEY` and binding `LIVEKIT_URL` to
the empty string (for witnesses). -/
def envTwoMissing : EnvMap := fun n =>
  if n == "TAVUS_API_KEY" then none
  else if n == "LIVEKIT_URL" then some ""
  else some "value"

/-- Simulator invariant: the variable `pending_task` references every
live (armed, uncancelled, unfired) task, and at most one such task
exists. -/
def WFsim (s : SimState) : Prop :=
  (∀ tk ∈ s.tasks, tk.status = TaskStatus.pending → s.pending_task = some tk.id)
    ∧ pendingCount s ≤ 1

/-! ### Basic facts about `strip` -/

theorem dropWhile_fixed_of_front {α : Type} {p : α → Bool} {l m : List α}
    (hl : List.dropWhile p l = l) (hm : m <+: l) : List.dropWhile p m = m := by
  cases m with
  | nil => rfl
  | cons c cs =>
    obtain ⟨t, ht⟩ := hm
    rw [List.cons_append] at ht
    subst ht
    rw [List.dropWhile_cons] at hl ⊢
    by_cases hc : p c
    · exfalso
      rw [if_pos hc] at hl
      have hlen := congrArg List.length hl
      have hle : (List.dropWhile p (cs ++ t)).length ≤ (cs ++ t).length :=
        (List.dropWhile_suffix p).sublist.length_le
      simp only [List.length_cons] at hlen
      omega
    · rw [if_neg hc]

theorem strip_strip (s : Str) : strip (strip s) = strip s := by
  unfold strip
  have hpre := List.rdropWhile_prefix Char.isWhitespace (s.dropWhile Char.isWhitespace)
  rw [dropWhile_fixed_of_front (List.dropWhile_idempotent _ _) hpre,
    List.rdropWhile_idempotent]

theorem strip_eq_nil_of_whitespace {s : Str} (h : ∀ c ∈ s, c.isWhitespace) :
    strip s = [] := by
  unfold strip
  rw [List.dropWhile_eq_nil_iff.mpr h, List.rdropWhile_nil]

/-! ### Claim theorems: the immediate-speak path -/

/-- C10: `speak_now` leaves the debounce closure state unchanged — it
never assigns `pending_text` and never cancels, clears, or creates
`pending_task`, for every input text and whether or not the interruption
or say call fails. -/
theorem C10_speak_now_frame (env : FailEnv) (st : DebounceState) (text : Str) :
    (speak_now env st text).1 = st := by
  unfold speak_now
  dsimp only
  split
  · rfl
  · split <;> rfl

/-- C6: if `session.interrupt()` raises during an immediate speak, the
failure is caught and ignored, the say is still issued with the same
text, and the result equals the no-failure run; a `session.say` failure,
by contrast, is not caught and propagates. -/
theorem C6_interrupt_failure_swallowed (st : DebounceState) (x : Str) (ifl : Bool)
    (h : strip x ≠ []) :
    (speak_now ⟨true, false⟩ st x).2
        = .ok [.interruptAttempt, .say ⟨strip x, true⟩]
    ∧ (speak_now ⟨true, false⟩ st x).2 = (speak_now ⟨false, false⟩ st x).2
    ∧ (speak_now ⟨ifl, true⟩ st x).2 = .error "speech output failure" := by
  have hne : (strip x).isEmpty = false := List.isEmpty_eq_false.mpr h
  cases ifl <;>
    simp [speak_now, interruptOp, sayOp, hne]

/-- Witness for C6 at a concrete state and the text `" hi "`. -/
theorem C6_witness :
    strip [' ', 'h', 'i', ' '] ≠ [] ∧
    ((speak_now ⟨true, false⟩ ⟨['x'], some 3⟩ [' ', 'h', 'i', ' ']).2
        = .ok [.interruptAttempt, .say ⟨strip [' ', 'h', 'i', ' '], true⟩]
    ∧ (speak_now ⟨true, false⟩ ⟨['x'], some 3⟩ [' ', 'h', 'i', ' ']).2
        = (speak_now ⟨false, false⟩ ⟨['x'], some 3⟩ [' ', 'h', 'i', ' ']).2
    ∧ (speak_now ⟨true, true⟩ ⟨['x'], some 3⟩ [' ', 'h', 'i', ' ']).2
        = .error "speech output failure") :=
  ⟨by decide, C6_interrupt_failure_swallowed ⟨['x'], some 3⟩ [' ', 'h', 'i', ' '] true (by decide)⟩

/-- C3: a final transcript event, and a text-input event, with non-blank
text cause an immediate say at the event's own time with exactly the
stripped text and `allow_interruptions = True`, preceded by an interrupt
attempt; no timer is created and no other state changes. -/
theorem C3_immediate_say (s : SimState) (t : Time) (x : Str) (h : strip x ≠ []) :
    handleEvent t (.transcript (some x) true) s
      = { s with out := s.out ++ [(t, .interruptAttempt), (t, .say ⟨strip x, true⟩)] }
    ∧ handleEvent t (.textInput (some x)) s
      = { s with out := s.out ++ [(t, .interruptAttempt), (t, .say ⟨strip x, true⟩)] } := by
  have hne : (strip x).isEmpty = false := List.isEmpty_eq_false.mpr h
  constructor
  · simp [handleEvent, on_transcript, hne, runDispatch, runLoopFn, speakCalls, strip_strip]
  · simp [handleEvent, hne]

/-- Witness for C3: final transcript `"hi"` at time 0 from the initial
state. -/
theorem C3_witness :
    strip ['h', 'i'] ≠ [] ∧
    (handleEvent 0 (.transcript (some ['h', 'i']) true) initState
      = { initState with
          out := [(0, .interruptAttempt), (0, .say ⟨strip ['h', 'i'], true⟩)] }
    ∧ handleEvent 0 (.textInput (some ['h', 'i'])) initState
      = { initState with
          out := [(0, .interruptAttempt), (0, .say ⟨strip ['h', 'i'], true⟩)] }) :=
  ⟨by decide, C3_immediate_say initState 0 ['h', 'i'] (by decide)⟩

/-- C4: blank input (empty or whitespace-only) is discarded silently on
every path: transcript events (final or not) and text-input events leave
the simulator state untouched (no say, no interrupt, no timer), and
`speak_now` / `on_text` return without making any session call. -/
theorem C4_blank_ignored (s : SimState) (t : Time) (b : Bool) (x : Str)
    (env : FailEnv) (st : DebounceState) (h : ∀ c ∈ x, c.isWhitespace) :
    handleEvent t (.transcript (some x) b) s = s
    ∧ handleEvent t (.textInput (some x)) s = s
    ∧ speak_now env st x = (st, .ok [])
    ∧ on_text env (some x) = .ok [] := by
  have hnil : strip x = [] := strip_eq_nil_of_whitespace h
  refine ⟨?_, ?_, ?_, ?_⟩ <;>
    simp [handleEvent, on_transcript, speak_now, on_text, hnil]

/-- Witness for C4 at the whitespace text `"  "`. -/
theorem C4_witness :
    (∀ c ∈ [' ', ' '], c.isWhitespace) ∧
    (handleEvent 1 (.transcript (some [' ', ' ']) false) initState = initState
    ∧ handleEvent 1 (.textInput (some [' ', ' '])) initState = initState
    ∧ speak_now ⟨true, true⟩ ⟨['x'], some 3⟩ [' ', ' '] = (⟨['x'], some 3⟩, .ok [])
    ∧ on_text ⟨true, true⟩ (some [' ', ' ']) = .ok []) :=
  ⟨by decide, C4_blank_ignored initState 1 false [' ', ' '] ⟨true, true⟩ ⟨['x'], some 3⟩ (by decide)⟩

/-! ### Claim theorems: concurrency marshalling -/

/-- C9: every invocation `on_transcript` issues — for both the
final-transcript (`speak_now`) and non-final (`schedule_debounced_speak`)
paths, i.e. all pending-state mutations and speech/interrupt calls — is
marshalled onto the controlling loop via `loop.call_soon_threadsafe`,
never invoked directly on the event-producing thread. -/
theorem C9_transcript_marshalled (tr : Option Str) (fin : Bool) (d : Dispatch)
    (hd : d ∈ on_transcript tr fin) : dispatchMarshalled d = true := by
  unfold on_transcript at hd
  dsimp only at hd
  split at hd
  · simp at hd
  · split at hd <;> (simp at hd; subst hd; rfl)

/-- Witness for C9: a non-final transcript's scheduling call is
marshalled. -/
theorem C9_witness :
    (Dispatch.callSoonThreadsafe (.scheduleDebouncedFn ['h'])
        ∈ on_transcript (some ['h']) false) ∧
    dispatchMarshalled (Dispatch.callSoonThreadsafe (.scheduleDebouncedFn ['h'])) = true :=
  ⟨by decide, C9_transcript_marshalled (some ['h']) false _ (by decide)⟩

/-! ### Claim theorems: bootstrap -/

/-- C7: if any required variable is unset or empty, `entrypoint` raises
the `require_env` error before attempting any external acquisition (the
action trace is empty), and the message reports the complete filtered
list of missing names; every missing name is in that list. -/
theorem C7_missing_env_fails_first (env : EnvMap) (a : Option Time) (n : String)
    (hn : n ∈ requiredNames) (hm : isMissing env n = true) :
    entrypoint_run env a
      = ([], .error (envErrMsg (requiredNames.filter fun m => isMissing env m)))
    ∧ n ∈ requiredNames.filter fun m => isMissing env m := by
  have hmem : n ∈ requiredNames.filter fun m => isMissing env m :=
    List.mem_filter.mpr ⟨hn, hm⟩
  have hne : (requiredNames.filter fun m => isMissing env m).isEmpty = false :=
    List.isEmpty_eq_false.mpr (List.ne_nil_of_mem hmem)
  refine ⟨?_, hmem⟩
  unfold entrypoint_run require_env
  simp [hne]

/-- Witness for C7: an environment with `TAVUS_API_KEY` unset and
`LIVEKIT_URL` empty fails before connecting, reporting both. -/
theorem C7_witness :
    ("TAVUS_API_KEY" ∈ requiredNames ∧ isMissing envTwoMissing "TAVUS_API_KEY" = true) ∧
    (entrypoint_run envTwoMissing none
      = ([], .error (envErrMsg
          (requiredNames.filter fun m => isMissing envTwoMissing m)))
    ∧ "TAVUS_API_KEY" ∈ requiredNames.filter fun m => isMissing envTwoMissing m) :=
  ⟨⟨by decide, by rfl⟩,
    C7_missing_env_fails_first envTwoMissing none "TAVUS_API_KEY" (by decide) (by rfl)⟩

/-- C8: if `avatar.start` does not complete within 30 time units, the
`asyncio.wait_for` wrapper resolves at exactly 30 with a timeout error,
and (environment permitting) the startup sequence fails there, after
connect and avatar-start were attempted but before session start. -/
theorem C8_avatar_timeout (env : EnvMap) (d : Option Time)
    (henv : require_env env requiredNames = .ok ())
    (h : ∀ x, d = some x → (30 : Time) < x) :
    avatar_start_await d = (30, .error "TimeoutError")
    ∧ entrypoint_run env d = ([.connect, .avatarStart], .error "TimeoutError") := by
  have ha : avatar_start_await d = (30, .error "TimeoutError") := by
    cases d with
    | none => rfl
    | some x =>
      have hx : ¬ (x ≤ 30) := not_le.mpr (h x rfl)
      simp [avatar_start_await, hx]
  refine ⟨ha, ?_⟩
  unfold entrypoint_run
  rw [henv, ha]

/-- Witness for C8: a hanging avatar start under a fully-set
environment. -/
theorem C8_witness :
    require_env envAllSet requiredNames = .ok () ∧
    (avatar_start_await none = (30, .error "TimeoutError")
    ∧ entrypoint_run envAllSet none = ([.connect, .avatarStart], .error "TimeoutError")) :=
  ⟨by rfl, C8_avatar_timeout envAllSet none (by rfl) (fun x hx => by cases hx)⟩

/-! ### Claim theorem: the stale-timer double fire (C2) -/

/-- C2 (refuting run): a non-final `"hello"` at time 0 arms the debounce
timer; a final `"bye"` at time 0.3 speaks immediately but neither
cancels the timer nor clears `pending_text`, so the timer fires at 0.7
and issues a second, stale `SpeechRequest("hello")`. -/
theorem C2_stale_double_fire :
    saidRequests (simulate
      [(0, .transcript (some ['h', 'e', 'l', 'l', 'o']) false),
       (3/10, .transcript (some ['b', 'y', 'e']) true)])
      = [(3/10, ⟨['b', 'y', 'e'], true⟩),
         (7/10, ⟨['h', 'e', 'l', 'l', 'o'], true⟩)] := by
  have h1 : strip ['h', 'e', 'l', 'l', 'o'] = ['h', 'e', 'l', 'l', 'o'] := by decide
  have h2 : strip ['b', 'y', 'e'] = ['b', 'y', 'e'] := by decide
  have h3 : ¬ ((0 : Time) + QUIET ≤ 3/10) := by norm_num [QUIET]
  have h4 : ¬ ((['h', 'e', 'l', 'l', 'o'] : Str) = []) := by decide
  norm_num [simulate, runTimeline, stepEvent, handleEvent, on_transcript, runDispatch,
    runLoopFn, schedule_debounced_speak, fireDue, fireTask, drain, initState, speakCalls,
    saidRequests, QUIET, h1, h2, h3, h4, List.filterMap_cons, List.filterMap_nil]

/-! ### The single-live-timer invariant (C5) -/

theorem wfsim_init : WFsim initState :=
  ⟨fun tk htk => absurd htk (by simp [initState]), by simp [pendingCount, initState]⟩

theorem schedule_none (t : Time) (x : Str) (s : SimState)
    (hpt : s.pending_task = none) :
    schedule_debounced_speak t x s =
      { s with pending_text := x,
               tasks := s.tasks ++ [(⟨s.nextId, t + QUIET, TaskStatus.pending⟩ : TaskRec)],
               pending_task := some s.nextId, nextId := s.nextId + 1 } := by
  simp [schedule_debounced_speak, hpt]

theorem schedule_some (t : Time) (x : Str) (s : SimState) (i : Nat)
    (hpt : s.pending_task = some i) :
    schedule_debounced_speak t x s =
      { s with pending_text := x,
               tasks := (s.tasks.map fun tk =>
                   if tk.id = i ∧ tk.status = TaskStatus.pending
                   then { tk with status := TaskStatus.cancelled } else tk)
                 ++ [(⟨s.nextId, t + QUIET, TaskStatus.pending⟩ : TaskRec)],
               pending_task := some s.nextId, nextId := s.nextId + 1 } := by
  simp [schedule_debounced_speak, hpt]

theorem wfsim_fireTask (s : SimState) (i : Nat) (h : WFsim s) : WFsim (fireTask s i) := by
  obtain ⟨hP, hQ⟩ := h
  unfold fireTask
  cases hfind : s.tasks.find? (fun tk => tk.id = i) with
  | none => exact ⟨hP, hQ⟩
  | some tk =>
    dsimp only
    by_cases hst : tk.status = TaskStatus.pending
    · rw [if_pos hst]
      constructor
      · intro tk' htk' hp'
        rw [List.mem_map] at htk'
        obtain ⟨x, hx, hfx⟩ := htk'
        by_cases hxi : x.id = i
        · rw [if_pos hxi] at hfx
          rw [← hfx] at hp'
          exact absurd hp' (by simp)
        · rw [if_neg hxi] at hfx
          subst hfx
          exact hP x hx hp'
      · refine le_trans ?_ hQ
        unfold pendingCount
        rw [List.countP_map]
        refine List.countP_mono_left fun x hx hpx => ?_
        simp only [Function.comp] at hpx
        by_cases hxi : x.id = i
        · rw [if_pos hxi] at hpx
          simp at hpx
        · rw [if_neg hxi] at hpx
          exact hpx
    · rw [if_neg hst]
      exact ⟨hP, hQ⟩

theorem wfsim_foldl_fire (L : List TaskRec) (s : SimState) (h : WFsim s) :
    WFsim (L.foldl (fun s tk => fireTask s tk.id) s) := by
  induction L generalizing s with
  | nil => exact h
  | cons a l ih => exact ih _ (wfsim_fireTask _ _ h)

theorem wfsim_fireDue (s : SimState) (t : Time) (h : WFsim s) : WFsim (fireDue s t) :=
  wfsim_foldl_fire _ _ h

theorem schedule_effect (t : Time) (x : Str) (s : SimState) (h : WFsim s) :
    WFsim (schedule_debounced_speak t x s)
    ∧ pendingCount (schedule_debounced_speak t x s) = 1
    ∧ ∀ tk ∈ s.tasks, tk.status = TaskStatus.pending →
        { tk with status := TaskStatus.cancelled }
          ∈ (schedule_debounced_speak t x s).tasks := by
  obtain ⟨hP, hQ⟩ := h
  cases hpt : s.pending_task with
  | none =>
    rw [schedule_none t x s hpt]
    have hzero : s.tasks.countP (fun tk => tk.status == TaskStatus.pending) = 0 := by
      rw [List.countP_eq_zero]
      intro a ha hbeq
      rw [beq_iff_eq] at hbeq
      rw [hP a ha hbeq] at hpt
      exact Option.noConfusion hpt
    refine ⟨⟨?_, ?_⟩, ?_, ?_⟩
    · intro tk htk hp
      rw [List.mem_append] at htk
      rcases htk with htk | htk
      · rw [hP tk htk hp] at hpt
        exact Option.noConfusion hpt
      · rw [List.mem_singleton] at htk
        subst htk
        rfl
    · unfold pendingCount
      dsimp only
      rw [List.countP_append, hzero]
      simp [List.countP_cons]
    · unfold pendingCount
      dsimp only
      rw [List.countP_append, hzero]
      simp [List.countP_cons]
    · intro tk htk hp
      rw [hP tk htk hp] at hpt
      exact Option.noConfusion hpt
  | some i =>
    rw [schedule_some t x s i hpt]
    have hcan : ∀ tk ∈ s.tasks,
        ((if tk.id = i ∧ tk.status = TaskStatus.pending
          then { tk with status := TaskStatus.cancelled } else tk) : TaskRec).status
          ≠ TaskStatus.pending ∨ tk.status ≠ TaskStatus.pending := by
      intro tk htk
      by_cases hp : tk.status = TaskStatus.pending
      · left
        have hid : tk.id = i := by
          have := hP tk htk hp
          rw [hpt] at this
          exact (Option.some.injEq _ _).mp this.symm
        rw [if_pos ⟨hid, hp⟩]
        simp
      · right
        exact hp
    have hzero : (s.tasks.map fun tk =>
        if tk.id = i ∧ tk.status = TaskStatus.pending
        then { tk with status := TaskStatus.cancelled } else tk).countP
          (fun tk => tk.status == TaskStatus.pending) = 0 := by
      rw [List.countP_eq_zero]
      intro a ha
      rw [List.mem_map] at ha
      obtain ⟨b, hb, hba⟩ := ha
      rcases hcan b hb with hl | hr
      · rw [hba] at hl
        simpa using hl
      · by_cases hbi : b.id = i ∧ b.status = TaskStatus.pending
        · exact absurd hbi.2 hr
        · rw [if_neg hbi] at hba
          subst hba
          simpa using hr
    refine ⟨⟨?_, ?_⟩, ?_, ?_⟩
    · intro tk htk hp
      rw [List.mem_append] at htk
      rcases htk with htk | htk
      · exfalso
        have : (s.tasks.map fun tk =>
            if tk.id = i ∧ tk.status = TaskStatus.pending
            then { tk with status := TaskStatus.cancelled } else tk).countP
              (fun tk => tk.status == TaskStatus.pending) ≠ 0 := by
          intro hc
          rw [List.countP_eq_zero] at hc
          exact hc tk htk (by simp [hp])
        exact this hzero
      · rw [List.mem_singleton] at htk
        subst htk
        rfl
    · unfold pendingCount
      dsimp only
      rw [List.countP_append, hzero]
      simp [List.countP_cons]
    · unfold pendingCount
      dsimp only
      rw [List.countP_append, hzero]
      simp [List.countP_cons]
    · intro tk htk hp
      have hid : tk.id = i := by
        have := hP tk htk hp
        rw [hpt] at this
        exact (Option.some.injEq _ _).mp this.symm
      dsimp only
      rw [List.mem_append]
      left
      rw [List.mem_map]
      exact ⟨tk, htk, by rw [if_pos ⟨hid, hp⟩]⟩

theorem handleEvent_nonfinal (t : Time) (x : Str) (s : SimState) (hx : strip x ≠ []) :
    handleEvent t (.transcript (some x) false) s
      = schedule_debounced_speak t (strip x) s := by
  have hne : (strip x).isEmpty = false := List.isEmpty_eq_false.mpr hx
  simp [handleEvent, on_transcript, hne, runDispatch, runLoopFn]

theorem wfsim_handleEvent (t : Time) (e : Ev) (s : SimState) (h : WFsim s) :
    WFsim (handleEvent t e s) := by
  cases e with
  | transcript tr fin =>
    unfold handleEvent on_transcript
    dsimp only
    by_cases hemp : (strip (tr.getD [])).isEmpty
    · rw [if_pos hemp]
      exact h
    · rw [if_neg hemp]
      cases fin with
      | true =>
        rw [if_pos rfl]
        exact ⟨h.1, h.2⟩
      | false =>
        rw [if_neg (by simp)]
        exact (schedule_effect t _ s h).1
  | textInput tr =>
    unfold handleEvent
    dsimp only
    by_cases hemp : (strip (tr.getD [])).isEmpty
    · rw [if_pos hemp]
      exact h
    · rw [if_neg hemp]
      exact ⟨h.1, h.2⟩

theorem wfsim_stepEvent (s : SimState) (te : Time × Ev) (h : WFsim s) :
    WFsim (stepEvent s te) :=
  wfsim_handleEvent _ _ _ (wfsim_fireDue _ _ h)

theorem wfsim_runTimeline (evs : List (Time × Ev)) (s : SimState) (h : WFsim s) :
    WFsim (runTimeline s evs) := by
  induction evs generalizing s with
  | nil => exact h
  | cons e l ih => exact ih _ (wfsim_stepEvent _ _ h)

/-- C5: at most one debounce timer is live at any reachable state, and
when a new non-final transcript with non-blank text arrives, every timer
still live at delivery time is cancelled by `schedule_debounced_speak`
(so its speak action never runs) and the freshly armed timer is the
single live one.  This holds after arbitrarily many events, so the
supersession can repeat without bound. -/
theorem C5_single_live_timer (evs : List (Time × Ev)) (t : Time) (x : Str)
    (tk : TaskRec) (hx : strip x ≠ [])
    (htk : tk ∈ (fireDue (runTimeline initState evs) t).tasks)
    (hp : tk.status = TaskStatus.pending) :
    pendingCount (runTimeline initState evs) ≤ 1
    ∧ { tk with status := TaskStatus.cancelled }
        ∈ (runTimeline initState (evs ++ [(t, Ev.transcript (some x) false)])).tasks
    ∧ pendingCount (runTimeline initState (evs ++ [(t, Ev.transcript (some x) false)])) = 1 := by
  have hwf : WFsim (runTimeline initState evs) :=
    wfsim_runTimeline evs initState wfsim_init
  have hwfd : WFsim (fireDue (runTimeline initState evs) t) :=
    wfsim_fireDue _ _ hwf
  have hrun : runTimeline initState (evs ++ [(t, Ev.transcript (some x) false)])
      = schedule_debounced_speak t (strip x) (fireDue (runTimeline initState evs) t) := by
    unfold runTimeline
    rw [List.foldl_append]
    simp only [List.foldl_cons, List.foldl_nil]
    unfold stepEvent
    exact handleEvent_nonfinal t x _ hx
  obtain ⟨hWF2, hcount, hcanc⟩ := schedule_effect t (strip x) _ hwfd
  refine ⟨hwf.2, ?_, ?_⟩
  · rw [hrun]
    exact hcanc tk htk hp
  · rw [hrun]
    exact hcount

/-- Witness for C5: a partial `"h"` at time 0 arms timer 0; a partial
`"y"` at time 0.5 cancels it and leaves exactly one live timer. -/
theorem C5_witness :
    ((⟨0, (0 : Time) + QUIET, TaskStatus.pending⟩ : TaskRec)
        ∈ (fireDue (runTimeline initState [(0, Ev.transcript (some ['h']) false)]) (1/2)).tasks)
    ∧ (pendingCount (runTimeline initState [(0, Ev.transcript (some ['h']) false)]) ≤ 1
      ∧ { (⟨0, (0 : Time) + QUIET, TaskStatus.pending⟩ : TaskRec) with
            status := TaskStatus.cancelled }
          ∈ (runTimeline initState ([(0, Ev.transcript (some ['h']) false)]
              ++ [(1/2, Ev.transcript (some ['y']) false)])).tasks
      ∧ pendingCount (runTimeline initState ([(0, Ev.transcript (some ['h']) false)]
          ++ [(1/2, Ev.transcript (some ['y']) false)])) = 1) := by
  have hstr : strip ['h'] = ['h'] := by decide
  have hq : ¬ ((0 : Time) + QUIET ≤ 1/2) := by norm_num [QUIET]
  have hq2 : ¬ (QUIET ≤ ((2 : Time))⁻¹) := by norm_num [QUIET]
  have hmem : (⟨0, (0 : Time) + QUIET, TaskStatus.pending⟩ : TaskRec)
      ∈ (fireDue (runTimeline initState [(0, Ev.transcript (some ['h']) false)]) (1/2)).tasks := by
    simp [runTimeline, stepEvent, handleEvent, on_transcript, runDispatch, runLoopFn,
      schedule_debounced_speak, fireDue, initState, hstr, hq, hq2]
  exact ⟨hmem, C5_single_live_timer [(0, Ev.transcript (some ['h']) false)] (1/2) ['y']
    ⟨0, (0 : Time) + QUIET, TaskStatus.pending⟩ (by decide) hmem rfl⟩

/-! ### Coalescing of rapid partials (C1) -/

theorem foldl_fixed {α β : Type} (f : β → α → β) (b : β) (L : List α)
    (h : ∀ a ∈ L, f b a = b) : L.foldl f b = b := by
  induction L with
  | nil => rfl
  | cons a l ih =>
    rw [List.foldl_cons, h a (List.mem_cons_self a l)]
    exact ih fun a ha => h a (List.mem_cons_of_mem _ ha)

theorem chain_base (t : Time) (x : Str) (hx : strip x ≠ []) :
    ChainInv (stepEvent initState (t, Ev.transcript (some x) false)) t x := by
  have h1 : stepEvent initState (t, Ev.transcript (some x) false)
      = schedule_debounced_speak t (strip x) initState := by
    unfold stepEvent
    have hfd : fireDue initState t = initState := rfl
    rw [hfd]
    exact handleEvent_nonfinal t x _ hx
  rw [h1, schedule_none t (strip x) initState rfl]
  exact ⟨[], 0, rfl, by simp, rfl, rfl, rfl, rfl⟩

theorem chain_step (s : SimState) (tl t : Time) (xl x : Str)
    (hinv : ChainInv s tl xl) (h2 : t < tl + QUIET) (hx : strip x ≠ []) :
    ChainInv (stepEvent s (t, Ev.transcript (some x) false)) t x := by
  obtain ⟨done, n, htasks, hdone, hpt, hnext, htext, hout⟩ := hinv
  have hfilter : (s.tasks.filter fun tk =>
      tk.status = TaskStatus.pending ∧ tk.fireAt ≤ t) = [] := by
    rw [List.filter_eq_nil_iff]
    intro a ha
    rw [htasks, List.mem_append] at ha
    rcases ha with ha | ha
    · have hc := (hdone a ha).1
      simp [hc]
    · rw [List.mem_singleton] at ha
      subst ha
      have hnle : ¬ (tl + QUIET ≤ t) := not_le.mpr h2
      simp [hnle]
  have hfd : fireDue s t = s := by
    unfold fireDue
    rw [hfilter]
    rfl
  have hstep : stepEvent s (t, Ev.transcript (some x) false)
      = schedule_debounced_speak t (strip x) s := by
    unfold stepEvent
    rw [hfd]
    exact handleEvent_nonfinal t x s hx
  have hmapdone : List.map (fun tk =>
      if tk.id = n ∧ tk.status = TaskStatus.pending
      then { tk with status := TaskStatus.cancelled } else tk) done = done :=
    (List.map_congr_left fun d hd =>
      show _ = id d from if_neg fun hc => by
        have h1 := (hdone d hd).1
        rw [h1] at hc
        exact TaskStatus.noConfusion hc.2).trans (List.map_id done)
  rw [hstep, schedule_some t (strip x) s n hpt]
  refine ⟨done ++ [⟨n, tl + QUIET, TaskStatus.cancelled⟩], n + 1, ?_, ?_, ?_, ?_, ?_, ?_⟩
  · dsimp only
    rw [htasks, hnext, List.map_append, hmapdone]
    simp [List.append_assoc]
  · intro tk htk
    rw [List.mem_append] at htk
    rcases htk with htk | htk
    · exact ⟨(hdone tk htk).1, Nat.lt_succ_of_lt (hdone tk htk).2⟩
    · rw [List.mem_singleton] at htk
      subst htk
      exact ⟨rfl, Nat.lt_succ_self n⟩
  · dsimp only
    rw [hnext]
  · dsimp only
    rw [hnext]
  · rfl
  · exact hout

theorem chain_drain (s : SimState) (tl : Time) (xl : Str)
    (hinv : ChainInv s tl xl) (hxl : strip xl ≠ []) :
    saidRequests (drain s) = [(tl + QUIET, ⟨strip xl, true⟩)] := by
  obtain ⟨done, n, htasks, hdone, hpt, hnext, htext, hout⟩ := hinv
  have hsame : ∀ tk ∈ done, fireTask s tk.id = s := by
    intro tk htk
    unfold fireTask
    cases hfind : s.tasks.find? (fun a => a.id = tk.id) with
    | none => rfl
    | some a =>
      dsimp only
      have haid : a.id = tk.id := by
        have h1 := List.find?_some hfind
        simpa using h1
      have hamem := List.mem_of_find?_eq_some hfind
      rw [htasks, List.mem_append] at hamem
      rcases hamem with ha | ha
      · exact if_neg fun hp => by
          rw [(hdone a ha).1] at hp
          exact TaskStatus.noConfusion hp
      · exfalso
        rw [List.mem_singleton] at ha
        subst ha
        have hlt := (hdone tk htk).2
        dsimp only at haid
        omega
  have hnone : done.find? (fun a => a.id = n) = none := by
    rw [List.find?_eq_none]
    intro x hx
    simp only [decide_eq_true_eq]
    exact Nat.ne_of_lt (hdone x hx).2
  have hfindp : s.tasks.find? (fun a => a.id = n)
      = some ⟨n, tl + QUIET, TaskStatus.pending⟩ := by
    rw [htasks, List.find?_append, hnone]
    simp [List.find?_cons]
  have hne : (strip xl).isEmpty = false := List.isEmpty_eq_false.mpr hxl
  unfold drain
  rw [htasks, List.foldl_append,
    foldl_fixed (fun s tk => fireTask s tk.id) s done hsame]
  simp only [List.foldl_cons, List.foldl_nil]
  unfold fireTask
  rw [hfindp]
  dsimp only
  rw [if_pos rfl, hout, htext]
  simp [saidRequests, speakCalls, strip_strip, hne]

theorem chain_run (rest : List (Time × Str)) :
    ∀ (s : SimState) (tl : Time) (xl : Str), ChainInv s tl xl → strip xl ≠ [] →
    chainOK (tl, xl) rest →
    saidRequests (drain (runTimeline s (chainEvents rest)))
      = [((rest.getLastD (tl, xl)).1 + QUIET,
          ⟨strip (rest.getLastD (tl, xl)).2, true⟩)] := by
  induction rest with
  | nil =>
    intro s tl xl hinv hxl _
    exact chain_drain s tl xl hinv hxl
  | cons e l ih =>
    intro s tl xl hinv hxl hok
    obtain ⟨h1, h2, h3, h4⟩ := hok
    have hstep : ChainInv (stepEvent s (e.1, Ev.transcript (some e.2) false)) e.1 e.2 :=
      chain_step s tl e.1 xl e.2 hinv h2 h3
    have hrw : runTimeline s (chainEvents (e :: l))
        = runTimeline (stepEvent s (e.1, Ev.transcript (some e.2) false)) (chainEvents l) := by
      simp [chainEvents, runTimeline]
    rw [hrw, List.getLastD_cons]
    exact ih _ e.1 e.2 hstep h3 h4

/-- C1: for any sequence of non-final transcripts with non-blank text in
which each event arrives strictly less than `QUIET` after the previous
one, the full run issues exactly one `SpeechRequest`, at the last
event's time plus `QUIET`, carrying the stripped text of the LAST event
(the timer reads `pending_text` at fire time). -/
theorem C1_debounced_coalescing (t1 : Time) (x1 : Str) (rest : List (Time × Str))
    (hx : strip x1 ≠ []) (hc : chainOK (t1, x1) rest) :
    saidRequests (simulate (chainEvents ((t1, x1) :: rest)))
      = [((rest.getLastD (t1, x1)).1 + QUIET,
          ⟨strip (rest.getLastD (t1, x1)).2, true⟩)] := by
  unfold simulate
  have hrw : runTimeline initState (chainEvents ((t1, x1) :: rest))
      = runTimeline (stepEvent initState (t1, Ev.transcript (some x1) false))
          (chainEvents rest) := by
    simp [chainEvents, runTimeline]
  rw [hrw]
  exact chain_run rest _ t1 x1 (chain_base t1 x1 hx) hx hc

/-- Witness for C1: partials `"h"` at 0, `"he"` at 0.2, `"hello"` at
0.3 yield exactly one request, `"hello"` at 0.3 + 0.7. -/
theorem C1_witness :
    (strip ['h'] ≠ []
      ∧ chainOK ((0 : Time), ['h'])
          [(2/10, ['h', 'e']), (3/10, ['h', 'e', 'l', 'l', 'o'])]) ∧
    saidRequests (simulate (chainEvents
        [((0 : Time), ['h']), (2/10, ['h', 'e']), (3/10, ['h', 'e', 'l', 'l', 'o'])]))
      = [(([((2 : Time)/10, (['h', 'e'] : Str)), (3/10, ['h', 'e', 'l', 'l', 'o'])].getLastD
            ((0 : Time), ['h'])).1 + QUIET,
          ⟨strip ([((2 : Time)/10, (['h', 'e'] : Str)),
            (3/10, ['h', 'e', 'l', 'l', 'o'])].getLastD ((0 : Time), ['h'])).2, true⟩)] := by
  have hok : chainOK ((0 : Time), ['h'])
      [(2/10, ['h', 'e']), (3/10, ['h', 'e', 'l', 'l', 'o'])] := by
    refine ⟨?_, ?_, ?_, ?_, ?_, ?_, trivial⟩
    · norm_num
    · norm_num [QUIET]
    · decide
    · norm_num
    · norm_num [QUIET]
    · decide
  exact ⟨⟨by decide, hok⟩,
    C1_debounced_coalescing 0 ['h'] [(2/10, ['h', 'e']), (3/10, ['h', 'e', 'l', 'l', 'o'])]
      (by decide) hok⟩
